import Mathlib

/-!
Shallow embedding of the izi-drummer step sequencer (src/main.js).

The program keeps its whole state in module-level variables: the drum kit
(track registry), the current step count, the grid being edited, the named
pattern library, the song timeline (arrangement), the active pattern name
and the playback tick counter.  Each DOM event handler is embedded as a
function from `State` (plus the handler's input) to `State`, or to
`Except Err State` where the handler rejects its input (JS `alert` + early
return).  Matrices are lists of rows of `Nat` cells (the JS code stores the
numbers 0 and 1).  The Tone.js transport is reduced to the one bit the core
reads: whether it is started; the `scheduleRepeat` callback is the `tick`
function.
-/

namespace IziDrummer

/-- A drum-kit entry (`{ name, note, color }` in main.js). -/
structure Drum where
  name : String
  note : String
  color : String
deriving DecidableEq, Repr

/-- A timeline block (`{ name, startBar }` in main.js). -/
structure Block where
  name : String
  startBar : Nat
deriving DecidableEq, Repr

/-- One pattern row: the 0/1 step flags of one track. -/
abbrev Row := List Nat

/-- A pattern matrix: one row per track. -/
abbrev Matrix := List Row

/-- `NOTE_POOL` of main.js: the fixed pool of notes for new drums. -/
def NOTE_POOL : List String :=
  ["C1", "D1", "E1", "F1", "F#1", "G1", "A1", "B1",
   "C2", "D2", "E2", "F2", "F#2", "G2", "A2", "B2",
   "C3", "D3", "E3", "F3", "F#3", "G3", "A3", "B3"]

/-- The initial `drumKit` of main.js (8 drums). -/
def initialDrumKit : List Drum :=
  [⟨"Kick", "C1", "#FF9800"⟩,
   ⟨"Snare", "D1", "#2196F3"⟩,
   ⟨"Tom 1", "E1", "#3F51B5"⟩,
   ⟨"Tom 2", "F1", "#3F51B5"⟩,
   ⟨"Floor Tom", "G1", "#3F51B5"⟩,
   ⟨"Hi-Hat Cl", "F#1", "#9C27B0"⟩,
   ⟨"Hi-Hat Op", "A1", "#9C27B0"⟩,
   ⟨"Crash", "B1", "#E91E63"⟩]

/-- Errors the UI handlers surface (JS `alert` + early return). -/
inductive Err where
  | CapacityExceeded
  | InvalidName
  | NotFound
deriving DecidableEq, Repr

/-- The error a scheduler tick would raise: reading `pattern[0].length`
of a library matrix with no rows (JS `TypeError`). -/
inductive TickError where
  | emptyPattern
deriving DecidableEq, Repr

/-- The module-level mutable state of main.js. -/
structure State where
  drumKit : List Drum
  currentSteps : Nat
  gridData : Matrix
  patternLibrary : List (String × Matrix)
  songTimeline : List Block
  currentActivePattern : Option String
  globalStep : Nat
  transportStarted : Bool
deriving DecidableEq, Repr

/-- Lookup in the pattern library (`patternLibrary[name]`): a JS object has
unique keys; we model it as an association list read front to back. -/
def libLookup : List (String × Matrix) → String → Option Matrix
  | [], _ => none
  | p :: ps, n => if p.1 = n then some p.2 else libLookup ps n

/-- Assignment `patternLibrary[name] = m`: overwrite the existing key in
place, else append (JS objects keep insertion order). -/
def libInsert : List (String × Matrix) → String → Matrix → List (String × Matrix)
  | [], n, m => [(n, m)]
  | p :: ps, n, m => if p.1 = n then (n, m) :: ps else p :: libInsert ps n m

/-- `resetGridData` of main.js: all-zero matrix, one row per drum. -/
def resetGridData (s : State) : State :=
  { s with gridData :=
      List.replicate s.drumKit.length (List.replicate s.currentSteps 0) }

/-- `saveCurrentToLibrary` of main.js: when an active pattern is set, deep-copy
the grid over that library entry (the JSON round-trip is value copying). -/
def saveCurrentToLibrary (s : State) : State :=
  match s.currentActivePattern with
  | none => s
  | some n => { s with patternLibrary := libInsert s.patternLibrary n s.gridData }

/-- The initial program state after main.js's top-level code ran
(`resetGridData()` with the 8-drum kit and 16 steps). -/
def initialState : State :=
  { drumKit := initialDrumKit
    currentSteps := 16
    gridData := List.replicate initialDrumKit.length (List.replicate 16 0)
    patternLibrary := []
    songTimeline := []
    currentActivePattern := none
    globalStep := 0
    transportStarted := false }

/-- The notes already used by the kit (`drumKit.map(d => d.note)`). -/
def usedNotes (s : State) : List String := s.drumKit.map (·.note)

/-- `NOTE_POOL.find(n => !usedNotes.includes(n))`. -/
def nextNote (s : State) : Option String :=
  NOTE_POOL.find? (fun n => ¬ (usedNotes s).contains n)

/-- The add-piece click handler of main.js (lines 94–116), given a
non-empty name from the prompt: appends a drum with the next unused pool
note and appends an all-zero grid row; fails when the pool is exhausted
(`alert("Max drum limit reached!")`).  Note: it does not auto-save. -/
def addPiece (s : State) (name : String) : Except Err State :=
  match nextNote s with
  | none => .error .CapacityExceeded
  | some note =>
      .ok { s with
              drumKit := s.drumKit ++ [⟨name, note, "#ffffff"⟩]
              gridData := s.gridData ++ [List.replicate s.currentSteps 0] }

/-- The observable next state of a handler that alerts and returns on
failure: the state is unchanged on an error. -/
def applyOrKeep (s : State) : Except Err State → State
  | .ok s' => s'
  | .error _ => s

/-- `resizeRow` as adjustGridSize builds each new row: `newStepCount` zeros,
with every old cell whose index is below `newStepCount` copied over. -/
def resizeRow (row : Row) (newStepCount : Nat) : Row :=
  (List.range newStepCount).map (fun i => row.getD i 0)

/-- `adjustGridSize` of main.js (lines 137–153): resize every row, then
auto-save when an active pattern is set. -/
def adjustGridSize (s : State) (newStepCount : Nat) : State :=
  saveCurrentToLibrary
    { s with gridData := s.gridData.map (fun row => resizeRow row newStepCount) }

/-- The whitespace JS `trim` and `parseInt` strip (the ASCII part; the
inputs at hand hold no exotic unicode spaces). -/
def isJsSpace (c : Char) : Bool :=
  c = ' ' ∨ c = '\t' ∨ c = '\n' ∨ c = '\r'

/-- `String.prototype.trim`: strip leading and trailing whitespace. -/
def jsTrim (str : String) : String :=
  ⟨(((str.data.dropWhile isJsSpace).reverse.dropWhile isJsSpace).reverse)⟩

/-- Decimal `parseInt` as main.js uses it on the steps input: trim, an
optional sign, then the longest digit prefix; no digits parse to `NaN`
(`none` here).  The radix-16 `0x` prefix path of the full JS builtin is
not taken by a number input and is not modelled. -/
def parseIntDec (str : String) : Option Int :=
  let cs := (jsTrim str).data
  let signed : Int × List Char :=
    match cs with
    | '-' :: r => (-1, r)
    | '+' :: r => (1, r)
    | r => (1, r)
  let ds := signed.2.takeWhile Char.isDigit
  if ds.isEmpty then none
  else some (signed.1 * (ds.foldl (fun a c => a * 10 + (c.toNat - '0'.toNat)) 0 : Nat))

/-- The steps-input change handler of main.js (lines 129–135):
`parseInt` the field, and only when `0 < n && n <= 64` set `currentSteps`
and resize the grid. -/
def stepsChange (s : State) (value : String) : State :=
  match parseIntDec value with
  | none => s
  | some n =>
      if 0 < n ∧ n ≤ 64 then
        adjustGridSize { s with currentSteps := n.toNat } n.toNat
      else s

/-- `gridData[row][step] === 1 ? 0 : 1`. -/
def toggleVal (v : Nat) : Nat := if v = 1 then 0 else 1

/-- The grid mousedown handler of main.js (lines 184–217), given the cell
it resolves the click to: bounds-check, flip the cell, auto-save when an
active pattern is set (the audition trigger is an external effect). -/
def toggleCell (s : State) (row step : Nat) : State :=
  if row ≥ s.drumKit.length ∨ step ≥ s.currentSteps then s
  else
    let oldRow := s.gridData.getD row []
    let newRow := oldRow.set step (toggleVal (oldRow.getD step 0))
    saveCurrentToLibrary { s with gridData := s.gridData.set row newRow }

/-- The clear-button handler of main.js (lines 224–228): reset the grid,
then auto-save when an active pattern is set. -/
def clearClick (s : State) : State :=
  saveCurrentToLibrary (resetGridData s)

/-- The save-part click handler of main.js (lines 235–250): trim the name
field; an all-blank name alerts and changes nothing; otherwise deep-copy
the grid into the library under the trimmed name and make it active. -/
def savePart (s : State) (input : String) : Except Err State :=
  let name := jsTrim input
  if name = "" then .error .InvalidName
  else
    .ok { s with
            patternLibrary := libInsert s.patternLibrary name s.gridData
            currentActivePattern := some name }

/-- `loadPattern` of main.js (lines 267–291): absent names change nothing;
otherwise set the active pattern, take the step count from the stored row 0
(16 when the matrix has no rows), and rebuild the grid with the stored row
per kit index when present, else an all-zero row. -/
def loadPattern (s : State) (name : String) : Except Err State :=
  match libLookup s.patternLibrary name with
  | none => .error .NotFound
  | some savedData =>
      let savedSteps := match savedData.head? with
        | some r0 => r0.length
        | none => 16
      let grid := (List.range s.drumKit.length).map (fun i =>
        match savedData[i]? with
        | some r => r
        | none => List.replicate savedSteps 0)
      .ok { s with
              currentActivePattern := some name
              currentSteps := savedSteps
              gridData := grid }

/-- The timeline mousedown handler of main.js (lines 333–348), given the
bar the click lands in and the (trimmed) part-name field: names not in the
library alert and change nothing; otherwise drop every block at that bar
and push the new one. -/
def placeBlock (s : State) (bar : Nat) (name : String) : Except Err State :=
  match libLookup s.patternLibrary name with
  | none => .error .NotFound
  | some _ =>
      .ok { s with songTimeline :=
              (s.songTimeline.filter (fun b => b.startBar ≠ bar)) ++ [⟨name, bar⟩] }

/-- `splice` of the first block found at the bar (contextmenu handler,
lines 351–361). -/
def removeFirstAt : List Block → Nat → List Block
  | [], _ => []
  | b :: bs, bar => if b.startBar = bar then bs else b :: removeFirstAt bs bar

/-- The timeline contextmenu handler of main.js: remove the first block at
the clicked bar, if any. -/
def removeBlock (s : State) (bar : Nat) : State :=
  { s with songTimeline := removeFirstAt s.songTimeline bar }

/-- Insert a block behind every block with a smaller-or-equal bar: the
stable insertion JS `Array.prototype.sort` performs on equal keys. -/
def insertBlock (x : Block) : List Block → List Block
  | [] => [x]
  | y :: ys => if x.startBar < y.startBar then x :: y :: ys else y :: insertBlock x ys

/-- `songTimeline.sort((a, b) => a.startBar - b.startBar)`: a stable sort
by `startBar`, modelled as left-to-right stable insertion. -/
def sortTimeline (tl : List Block) : List Block :=
  tl.foldl (fun acc x => insertBlock x acc) []

/-- The result of the tick's block scan: the found block (if any), its
local step, and the `accumulatedSteps` counter as the scan left it. -/
structure FindResult where
  foundBlock : Option Block
  localStep : Nat
  accumulatedSteps : Nat
deriving DecidableEq, Repr

/-- The scan of the scheduleRepeat callback (main.js lines 380–405): walk
the sorted timeline; a name absent from the library is skipped and adds
nothing; a present pattern's length is `pattern[0].length` — a matrix
with no rows would throw, which the `Except` tracks; the first block
whose window `[acc, acc + L)` holds `globalStep` is returned with
`localStep = globalStep - acc`. -/
def scanBlocks (lib : List (String × Matrix)) (globalStep : Nat) :
    List Block → Nat → Except TickError FindResult
  | [], acc => .ok ⟨none, 0, acc⟩
  | b :: bs, acc =>
      match libLookup lib b.name with
      | none => scanBlocks lib globalStep bs acc
      | some pattern =>
          match pattern.head? with
          | none => .error .emptyPattern
          | some r0 =>
              let L := r0.length
              if acc ≤ globalStep ∧ globalStep < acc + L then
                .ok ⟨some b, globalStep - acc, acc⟩
              else scanBlocks lib globalStep bs (acc + L)

/-- `stopPlayback` of main.js (lines 428–433): stop the transport and
reset the tick counter. -/
def stopPlayback (s : State) : State :=
  { s with transportStarted := false, globalStep := 0 }

/-- The whole scheduleRepeat callback (main.js lines 370–426): sort the
timeline in place, scan for the active block; with a block found the
callback only emits sounds (external); with none found and the scan past a
non-empty timeline's total length, `stopPlayback()`; then `globalStep++`
runs unconditionally — after an internal stop it runs on the counter the
stop just reset. -/
def tick (s : State) : Except TickError State :=
  let sorted := sortTimeline s.songTimeline
  match scanBlocks s.patternLibrary s.globalStep sorted 0 with
  | .error e => .error e
  | .ok res =>
      let s1 := { s with songTimeline := sorted }
      let s2 :=
        match res.foundBlock with
        | some _ => s1
        | none =>
            if s1.globalStep ≥ res.accumulatedSteps ∧ 0 < sorted.length then
              stopPlayback s1
            else s1
      .ok { s2 with globalStep := s2.globalStep + 1 }

/-- `n` scheduler ticks in a row, stopping at the first error. -/
def tickN : Nat → State → Except TickError State
  | 0, s => .ok s
  | n + 1, s =>
      match tick s with
      | .ok s' => tickN n s'
      | .error e => .error e

/-- The play-button handler of main.js (lines 435–445): toggle the
transport; stopping goes through `stopPlayback`. -/
def playClick (s : State) : State :=
  if s.transportStarted then stopPlayback s
  else { s with transportStarted := true }

/-- What tick `t` of a state's arrangement resolves to: the found block's
name and local step, `none` when no block matches (or the scan errors). -/
def resolved (s : State) (t : Nat) : Option (String × Nat) :=
  match scanBlocks s.patternLibrary t (sortTimeline s.songTimeline) 0 with
  | .ok r =>
      match r.foundBlock with
      | some b => some (b.name, r.localStep)
      | none => none
  | .error _ => none

/-- The step length a timeline block contributes to the scan: its
pattern's row-0 length, or 0 when the name is absent from the library or
the stored matrix has no rows. -/
def blockLen (lib : List (String × Matrix)) (b : Block) : Nat :=
  match libLookup lib b.name with
  | none => 0
  | some m =>
      match m.head? with
      | none => 0
      | some r0 => r0.length

/-- Total step length of a list of timeline blocks. -/
def accSteps (lib : List (String × Matrix)) (tl : List Block) : Nat :=
  (tl.map (blockLen lib)).sum

/-- One cell of a matrix, 0 outside its bounds (JS reads of missing
indices compare `undefined === 1` to false). -/
def cell (g : Matrix) (i j : Nat) : Nat := (g.getD i []).getD j 0

/-- Every library matrix has at least one row. -/
def LibOk (lib : List (String × Matrix)) : Prop := ∀ p ∈ lib, p.2 ≠ []

/-- The structural invariant the program maintains: a non-empty kit, a
grid row per kit entry, and no zero-row library matrix. -/
def Inv (s : State) : Prop :=
  0 < s.drumKit.length ∧ s.gridData.length = s.drumKit.length ∧ LibOk s.patternLibrary

/-- The states the program can reach from `initialState` through its event
handlers (handlers that alert and change nothing reach no new state). -/
inductive Reachable : State → Prop
  | init : Reachable initialState
  | addPiece {s s' : State} (name : String) :
      Reachable s → addPiece s name = .ok s' → Reachable s'
  | stepsChange {s : State} (value : String) :
      Reachable s → Reachable (stepsChange s value)
  | toggle {s : State} (row step : Nat) :
      Reachable s → Reachable (toggleCell s row step)
  | clear {s : State} : Reachable s → Reachable (clearClick s)
  | save {s s' : State} (input : String) :
      Reachable s → savePart s input = .ok s' → Reachable s'
  | load {s s' : State} (name : String) :
      Reachable s → loadPattern s name = .ok s' → Reachable s'
  | place {s s' : State} (bar : Nat) (name : String) :
      Reachable s → placeBlock s bar name = .ok s' → Reachable s'
  | remove {s : State} (bar : Nat) : Reachable s → Reachable (removeBlock s bar)
  | play {s : State} : Reachable s → Reachable (playClick s)
  | tick {s s' : State} : Reachable s → tick s = .ok s' → Reachable s'

/-- Pattern `A` of the scheduler-concatenation scenario: 8 tracks, 4 steps. -/
def matA : Matrix := List.replicate 8 (List.replicate 4 0)

/-- Pattern `B` of the scheduler-concatenation scenario: 8 tracks, 8 steps. -/
def matB : Matrix := List.replicate 8 (List.replicate 8 0)

/-- The scheduler-concatenation scenario: `A` (length 4) at bar 0 and `B`
(length 8) at bar 10, transport running. -/
def sAB : State :=
  { initialState with
      patternLibrary := [("A", matA), ("B", matB)]
      songTimeline := [⟨"A", 0⟩, ⟨"B", 10⟩]
      transportStarted := true }

/-- A running state about to fire the past-the-end tick: one 4-step
pattern at bar 0 and `globalStep = 4`. -/
def sStop : State :=
  { initialState with
      patternLibrary := [("A", matA)]
      songTimeline := [⟨"A", 0⟩]
      transportStarted := true
      globalStep := 4 }

/-- The initial state after saving the buffer as `"P"` (pattern `"P"` is
now active and its library entry equals the buffer). -/
def sP : State := applyOrKeep initialState (savePart initialState "P")

/-- `sP` after the add-piece handler appended a ninth track. -/
def sPadded : State := applyOrKeep sP (addPiece sP "Cowbell")

/-- `k` invocations of the add-piece handler in a row (alerting failures
keep the state). -/
def addNTimes : Nat → State → State
  | 0, s => s
  | n + 1, s => addNTimes n (applyOrKeep s (addPiece s "X"))

/-- The initial state after the save-part handler ran on the input
`" a "` (stored under the trimmed name `"a"`). -/
def sBlankSave : State := applyOrKeep initialState (savePart initialState " a ")

/-- A running state with an empty arrangement. -/
def sEmptyRun : State := { initialState with transportStarted := true }

/-- A state whose library holds a 2-row, 3-step pattern `"Q"`, against the
8-track initial kit. -/
def sQ : State :=
  { initialState with patternLibrary := [("Q", [[0, 1, 0], [1, 1, 0]])] }

end IziDrummer

deriving instance DecidableEq for Except

namespace IziDrummer

theorem libLookup_libInsert_self (lib : List (String × Matrix)) (n : String) (m : Matrix) :
    libLookup (libInsert lib n m) n = some m := by
  induction lib with
  | nil => simp [libInsert, libLookup]
  | cons p ps ih =>
      by_cases h : p.1 = n
      · simp [libInsert, libLookup, h]
      · simp [libInsert, libLookup, h, ih]

theorem saveCurrent_lookup (s : State) (name : String)
    (h : s.currentActivePattern = some name) :
    libLookup (saveCurrentToLibrary s).patternLibrary name
      = some (saveCurrentToLibrary s).gridData := by
  simp [saveCurrentToLibrary, h, libLookup_libInsert_self]


/-- Counterexample to claim C3 as stated: with the initial buffer saved as
the active pattern "P", the add-piece handler appends a ninth buffer row
without auto-saving, so the library entry under "P" is no longer deep-equal
to the buffer. -/
theorem addPiece_breaks_auto_save :
    sP.currentActivePattern = some "P" ∧
    libLookup sP.patternLibrary "P" = some sP.gridData ∧
    sPadded.currentActivePattern = some "P" ∧
    ¬ libLookup sPadded.patternLibrary "P" = some sPadded.gridData := by
  decide

/-- Claim C3 (amended): whenever the Active pattern pointer holds a name,
after an in-bounds toggle, a resize or a clear of the Pattern Buffer the
library entry stored under that name equals the current buffer.  (The
add-piece handler mutates the buffer without auto-saving, so the original
claim's addTrackRow case fails: see the counterexample.) -/
theorem auto_save_consistency (s : State) (name : String)
    (h : s.currentActivePattern = some name) :
    (∀ row step, row < s.drumKit.length → step < s.currentSteps →
        libLookup (toggleCell s row step).patternLibrary name
          = some (toggleCell s row step).gridData) ∧
    (∀ n, libLookup (adjustGridSize s n).patternLibrary name
        = some (adjustGridSize s n).gridData) ∧
    libLookup (clearClick s).patternLibrary name = some (clearClick s).gridData := by
  refine ⟨?_, ?_, ?_⟩
  · intro row step hr hs
    have hb : ¬ (row ≥ s.drumKit.length ∨ step ≥ s.currentSteps) := by omega
    simp only [toggleCell, if_neg hb]
    exact saveCurrent_lookup _ name h
  · intro n
    simp only [adjustGridSize]
    exact saveCurrent_lookup _ name h
  · simp only [clearClick]
    exact saveCurrent_lookup _ name h

/-- Witness for C3 at the concrete state `sP` with active pattern "P". -/
theorem auto_save_consistency_witness :
    (∀ row step, row < sP.drumKit.length → step < sP.currentSteps →
        libLookup (toggleCell sP row step).patternLibrary "P"
          = some (toggleCell sP row step).gridData) ∧
    (∀ n, libLookup (adjustGridSize sP n).patternLibrary "P"
        = some (adjustGridSize sP n).gridData) ∧
    libLookup (clearClick sP).patternLibrary "P" = some (clearClick sP).gridData :=
  auto_save_consistency sP "P" (by decide)

/-- Claim C2 fails on the code: on the tick past the last block the
callback calls stopPlayback (which resets the counter to 0) but the
trailing increment still runs, so the Stopped state is reached with the
tick counter at 1, not 0. -/
theorem tick_past_end_leaves_counter_one :
    tick sStop = Except.ok { sStop with transportStarted := false, globalStep := 1 } := by
  decide



set_option maxRecDepth 8000 in
/-- Counterexample to claim C4 as stated: the initial kit already uses 8
of the 24 pool notes, so from the initial state the 17th add-piece
invocation (not the 25th) fails with CapacityExceeded, at 24 tracks. -/
theorem addPiece_fails_on_17th :
    (addNTimes 16 initialState).drumKit.length = 24 ∧
    addPiece (addNTimes 16 initialState) "X" = Except.error Err.CapacityExceeded := by
  decide

set_option maxRecDepth 8000 in
/-- Claim C4 (amended): from the initial state, repeated addTrack succeeds
exactly 16 times - one per pool note not used by the 8 initial drums,
assigned in the pool's fixed order - and the 17th invocation fails with
CapacityExceeded, leaving the track registry and pattern buffer (the whole
state) unchanged. -/
theorem capacity_sixteen :
    (∀ k, k < 16 → (addPiece (addNTimes k initialState) "X").isOk = true) ∧
    (∀ k, k < 16 →
        (addNTimes (k + 1) initialState).drumKit.map (fun d => d.note)
          = initialState.drumKit.map (fun d => d.note) ++ (NOTE_POOL.drop 8).take (k + 1)) ∧
    addPiece (addNTimes 16 initialState) "X" = Except.error Err.CapacityExceeded ∧
    applyOrKeep (addNTimes 16 initialState) (addPiece (addNTimes 16 initialState) "X")
      = addNTimes 16 initialState := by
  decide

/-- Counterexample to claim C9 as stated: the save handler trims the name
first, so the non-blank input " a " is stored under "a" and the pointer is
set to "a" - no entry appears under " a " itself. -/
theorem saveAs_stores_trimmed :
    jsTrim " a " ≠ "" ∧
    libLookup sBlankSave.patternLibrary " a " = none ∧
    sBlankSave.currentActivePattern ≠ some " a " ∧
    libLookup sBlankSave.patternLibrary "a" = some initialState.gridData := by
  decide

/-- Claim C9 (amended): saveAs with an input that trims to the empty
string fails with InvalidName and leaves the state unchanged; with any
other input it stores a copy of the buffer under the trimmed name
(overwriting any existing entry) and sets the Active pattern pointer to
the trimmed name. -/
theorem saveAs_spec (s : State) (input : String) :
    (jsTrim input = "" →
        savePart s input = Except.error Err.InvalidName ∧
        applyOrKeep s (savePart s input) = s) ∧
    (jsTrim input ≠ "" →
        ∃ s', savePart s input = Except.ok s' ∧
          s'.patternLibrary = libInsert s.patternLibrary (jsTrim input) s.gridData ∧
          libLookup s'.patternLibrary (jsTrim input) = some s.gridData ∧
          s'.currentActivePattern = some (jsTrim input) ∧
          s'.gridData = s.gridData ∧
          s'.songTimeline = s.songTimeline) := by
  constructor
  · intro h0
    constructor
    · simp [savePart, h0]
    · simp [savePart, h0, applyOrKeep]
  · intro h0
    refine ⟨{ s with
                patternLibrary := libInsert s.patternLibrary (jsTrim input) s.gridData
                currentActivePattern := some (jsTrim input) }, ?_, ?_, ?_, ?_, ?_, ?_⟩ <;>
      simp [savePart, h0, libLookup_libInsert_self]



/-- Witness for C9 at the initial state and the input "beat". -/
theorem saveAs_spec_witness :
    (jsTrim "beat" = "" →
        savePart initialState "beat" = Except.error Err.InvalidName ∧
        applyOrKeep initialState (savePart initialState "beat") = initialState) ∧
    (jsTrim "beat" ≠ "" →
        ∃ s', savePart initialState "beat" = Except.ok s' ∧
          s'.patternLibrary
            = libInsert initialState.patternLibrary (jsTrim "beat") initialState.gridData ∧
          libLookup s'.patternLibrary (jsTrim "beat") = some initialState.gridData ∧
          s'.currentActivePattern = some (jsTrim "beat") ∧
          s'.gridData = initialState.gridData ∧
          s'.songTimeline = initialState.songTimeline) :=
  saveAs_spec initialState "beat"

/-- Counterexample to claim C10 as stated: the non-integer input "12.7"
parses to 12 under parseInt, so the handler does change the step count
(to 12) and the buffer, instead of leaving them unchanged. -/
theorem stepsChange_accepts_non_integer :
    parseIntDec "12.7" = some 12 ∧
    initialState.currentSteps = 16 ∧
    (stepsChange initialState "12.7").currentSteps = 12 ∧
    (stepsChange initialState "12.7").gridData ≠ initialState.gridData := by
  decide

/-- Claim C10 (amended): the step-count change is applied exactly when
parseInt of the field yields n with 1 <= n <= 64, and then the applied
count is that parsed n (so a non-integer numeric input applies its integer
prefix); non-numeric input (NaN) or an out-of-range n leaves the whole
state - step count, buffer and library - unchanged. -/
theorem stepsChange_spec (s : State) (value : String) :
    (∀ n : Int, parseIntDec value = some n → 0 < n → n ≤ 64 →
        stepsChange s value = adjustGridSize { s with currentSteps := n.toNat } n.toNat ∧
        (stepsChange s value).currentSteps = n.toNat) ∧
    (parseIntDec value = none → stepsChange s value = s) ∧
    (∀ n : Int, parseIntDec value = some n → ¬ (0 < n ∧ n ≤ 64) →
        stepsChange s value = s) := by
  refine ⟨?_, ?_, ?_⟩
  · intro n hp h1 h2
    constructor
    · simp [stepsChange, hp, h1, h2]
    · simp [stepsChange, hp, h1, h2, adjustGridSize, saveCurrentToLibrary]
      cases hc : ({ s with currentSteps := n.toNat } : State).currentActivePattern <;>
        simp [hc]
  · intro hp
    simp [stepsChange, hp]
  · intro n hp hno
    simp [stepsChange, hp, hno]

/-- Witness for C10 at the initial state and the out-of-range input "70". -/
theorem stepsChange_spec_witness :
    (∀ n : Int, parseIntDec "70" = some n → 0 < n → n ≤ 64 →
        stepsChange initialState "70"
            = adjustGridSize { initialState with currentSteps := n.toNat } n.toNat ∧
        (stepsChange initialState "70").currentSteps = n.toNat) ∧
    (parseIntDec "70" = none → stepsChange initialState "70" = initialState) ∧
    (∀ n : Int, parseIntDec "70" = some n → ¬ (0 < n ∧ n ≤ 64) →
        stepsChange initialState "70" = initialState) :=
  stepsChange_spec initialState "70"



theorem tick_empty_timeline (s : State) (h : s.songTimeline = []) :
    tick s = Except.ok { s with globalStep := s.globalStep + 1 } := by
  simp [tick, h, sortTimeline, scanBlocks]

/-- Claim C6: with an empty arrangement the scheduler never takes the
past-the-last-block stop transition: any number of ticks from a Running
state leaves it Running and advances the tick counter by exactly that
number, so the counter grows without bound. -/
theorem empty_arrangement_never_stops (s : State)
    (h1 : s.songTimeline = []) (h2 : s.transportStarted = true) (n : Nat) :
    tickN n s = Except.ok { s with globalStep := s.globalStep + n } ∧
    ({ s with globalStep := s.globalStep + n } : State).transportStarted = true := by
  constructor
  · induction n generalizing s with
    | zero => simp [tickN]
    | succ n ih =>
        have step := tick_empty_timeline s h1
        have ihs := ih { s with globalStep := s.globalStep + 1 } h1 h2
        simp only [tickN, step]
        rw [ihs]
        have : s.globalStep + 1 + n = s.globalStep + (n + 1) := by omega
        simp [this]
  · exact h2

/-- Witness for C6: five ticks of the running empty-arrangement state. -/
theorem empty_arrangement_never_stops_witness :
    tickN 5 sEmptyRun = Except.ok { sEmptyRun with globalStep := sEmptyRun.globalStep + 5 } ∧
    ({ sEmptyRun with globalStep := sEmptyRun.globalStep + 5 } : State).transportStarted = true :=
  empty_arrangement_never_stops sEmptyRun rfl rfl 5



theorem resizeRow_getD (row : Row) (n j : Nat) :
    (resizeRow row n).getD j 0 = if j < n then row.getD j 0 else 0 := by
  by_cases hj : j < n
  · simp [resizeRow, List.getD_eq_getElem?_getD, List.getElem?_map, List.getElem?_range hj, hj]
  · have hlen : (resizeRow row n).length ≤ j := by
      simp [resizeRow]; omega
    simp [List.getD_eq_getElem?_getD, List.getElem?_eq_none hlen, hj]

theorem resizeRow_length (row : Row) (n : Nat) : (resizeRow row n).length = n := by
  simp [resizeRow]

theorem adjustGridSize_gridData (s : State) (n : Nat) :
    (adjustGridSize s n).gridData = s.gridData.map (fun row => resizeRow row n) := by
  simp only [adjustGridSize, saveCurrentToLibrary]
  cases ({ s with gridData := s.gridData.map (fun row => resizeRow row n) } : State).currentActivePattern <;> rfl

theorem cell_map_resize (g : Matrix) (n i j : Nat) (hi : i < g.length) :
    cell (g.map (fun row => resizeRow row n)) i j
      = if j < n then cell g i j else 0 := by
  have hmap : (g.map (fun row => resizeRow row n)).getD i []
      = resizeRow (g.getD i []) n := by
    simp [List.getD_eq_getElem?_getD, List.getElem?_map, List.getElem?_eq_getElem hi]
  simp only [cell]
  rw [hmap, resizeRow_getD]



theorem getD_mem (g : Matrix) (i : Nat) (hi : i < g.length) : g.getD i [] ∈ g := by
  rw [List.getD_eq_getElem?_getD, List.getElem?_eq_getElem hi]
  exact List.getElem_mem hi

theorem cell_out (g : Matrix) (i j : Nat) (hrow : (g.getD i []).length ≤ j) :
    cell g i j = 0 := by
  simp [cell, List.getD_eq_getElem?_getD]
  rw [List.getElem?_eq_none]
  · rfl
  · rwa [List.getD_eq_getElem?_getD] at hrow

/-- Claim C7: resize preserves each cell at indices below min(old, new),
zero-fills indices from the old length up to the new one, and resize(n)
followed by resize(oldLen) restores the original cells exactly below
min(n, oldLen) and zeroes the rest. -/
theorem resize_preservation (s : State) (n oldLen : Nat)
    (h : ∀ r ∈ s.gridData, r.length = oldLen) :
    (∀ i j, i < s.gridData.length → j < min oldLen n →
        cell (adjustGridSize s n).gridData i j = cell s.gridData i j) ∧
    (∀ i j, i < s.gridData.length → oldLen ≤ j → j < n →
        cell (adjustGridSize s n).gridData i j = 0) ∧
    (∀ r ∈ (adjustGridSize s n).gridData, r.length = n) ∧
    (∀ i j, i < s.gridData.length → j < min n oldLen →
        cell (adjustGridSize (adjustGridSize s n) oldLen).gridData i j
          = cell s.gridData i j) ∧
    (∀ i j, i < s.gridData.length → min n oldLen ≤ j → j < oldLen →
        cell (adjustGridSize (adjustGridSize s n) oldLen).gridData i j = 0) := by
  have len1 : ((s.gridData.map (fun row => resizeRow row n)) : Matrix).length
      = s.gridData.length := by simp
  refine ⟨?_, ?_, ?_, ?_, ?_⟩
  · intro i j hi hj
    rw [adjustGridSize_gridData, cell_map_resize _ _ _ _ hi, if_pos (by omega)]
  · intro i j hi hj1 hj2
    rw [adjustGridSize_gridData, cell_map_resize _ _ _ _ hi, if_pos hj2]
    exact cell_out _ _ _ (by rw [h _ (getD_mem _ _ hi)]; omega)
  · intro r hr
    rw [adjustGridSize_gridData] at hr
    obtain ⟨row, hrow, rfl⟩ := List.mem_map.mp hr
    exact resizeRow_length _ _
  · intro i j hi hj
    rw [adjustGridSize_gridData, adjustGridSize_gridData,
      cell_map_resize _ _ _ _ (by rwa [len1]),
      cell_map_resize _ _ _ _ hi, if_pos (by omega), if_pos (by omega)]
  · intro i j hi hj1 hj2
    rw [adjustGridSize_gridData, adjustGridSize_gridData,
      cell_map_resize _ _ _ _ (by rwa [len1]),
      cell_map_resize _ _ _ _ hi, if_pos hj2, if_neg (by omega)]



/-- Witness for C7 at the initial 16-step buffer resized to 5 and back. -/
theorem resize_preservation_witness :
    (∀ i j, i < initialState.gridData.length → j < min 16 5 →
        cell (adjustGridSize initialState 5).gridData i j = cell initialState.gridData i j) ∧
    (∀ i j, i < initialState.gridData.length → 16 ≤ j → j < 5 →
        cell (adjustGridSize initialState 5).gridData i j = 0) ∧
    (∀ r ∈ (adjustGridSize initialState 5).gridData, r.length = 5) ∧
    (∀ i j, i < initialState.gridData.length → j < min 5 16 →
        cell (adjustGridSize (adjustGridSize initialState 5) 16).gridData i j
          = cell initialState.gridData i j) ∧
    (∀ i j, i < initialState.gridData.length → min 5 16 ≤ j → j < 16 →
        cell (adjustGridSize (adjustGridSize initialState 5) 16).gridData i j = 0) :=
  resize_preservation initialState 5 16 (by decide)

/-- Claim C8: loading a stored pattern with k rows into a registry of
m > k tracks yields rows 0..k-1 from storage, rows k..m-1 all-zero of the
loaded step count (the stored row-0 length, 16 for a rowless matrix), sets
the Active pattern pointer to the loaded name, and keeps exactly one row
per current track (stored rows beyond the track count are dropped). -/
theorem load_merge (s : State) (name : String) (saved : Matrix)
    (hlib : libLookup s.patternLibrary name = some saved)
    (hk : saved.length < s.drumKit.length) :
    ∃ s', loadPattern s name = Except.ok s' ∧
      s'.currentActivePattern = some name ∧
      s'.currentSteps = (match saved.head? with | some r0 => r0.length | none => 16) ∧
      s'.gridData.length = s.drumKit.length ∧
      (∀ i, i < saved.length → s'.gridData[i]? = saved[i]?) ∧
      (∀ i, saved.length ≤ i → i < s.drumKit.length →
          s'.gridData[i]? = some (List.replicate s'.currentSteps 0)) := by
  refine ⟨{ s with
              currentActivePattern := some name
              currentSteps := match saved.head? with | some r0 => r0.length | none => 16
              gridData := (List.range s.drumKit.length).map (fun i =>
                match saved[i]? with
                | some r => r
                | none => List.replicate
                    (match saved.head? with | some r0 => r0.length | none => 16) 0) },
            ?_, rfl, rfl, ?_, ?_, ?_⟩
  · simp [loadPattern, hlib]
  · simp
  · intro i hi
    have him : i < s.drumKit.length := by omega
    simp [List.getElem?_map, List.getElem?_range him, List.getElem?_eq_getElem hi]
  · intro i hi1 hi2
    simp [List.getElem?_map, List.getElem?_range hi2, List.getElem?_eq_none hi1]



/-- Witness for C8: loading the 2-row 3-step pattern "Q" into 8 tracks. -/
theorem load_merge_witness :
    ∃ s', loadPattern sQ "Q" = Except.ok s' ∧
      s'.currentActivePattern = some "Q" ∧
      s'.currentSteps
        = (match ([[0, 1, 0], [1, 1, 0]] : Matrix).head? with
            | some r0 => r0.length | none => 16) ∧
      s'.gridData.length = sQ.drumKit.length ∧
      (∀ i, i < ([[0, 1, 0], [1, 1, 0]] : Matrix).length →
          s'.gridData[i]? = ([[0, 1, 0], [1, 1, 0]] : Matrix)[i]?) ∧
      (∀ i, ([[0, 1, 0], [1, 1, 0]] : Matrix).length ≤ i → i < sQ.drumKit.length →
          s'.gridData[i]? = some (List.replicate s'.currentSteps 0)) :=
  load_merge sQ "Q" [[0, 1, 0], [1, 1, 0]] (by decide) (by decide)

theorem libLookup_mem (lib : List (String × Matrix)) (n : String) (m : Matrix)
    (h : libLookup lib n = some m) : (n, m) ∈ lib := by
  induction lib with
  | nil => simp [libLookup] at h
  | cons p ps ih =>
      obtain ⟨a, b⟩ := p
      by_cases hp : a = n
      · simp [libLookup, hp] at h
        simp [hp, h]
      · simp [libLookup, hp] at h
        exact List.mem_cons_of_mem _ (ih h)

theorem libOk_insert (lib : List (String × Matrix)) (n : String) (m : Matrix)
    (h : LibOk lib) (hm : m ≠ []) : LibOk (libInsert lib n m) := by
  induction lib with
  | nil =>
      intro p hp
      simp [libInsert] at hp
      simp [hp, hm]
  | cons q qs ih =>
      intro p hp
      by_cases hq : q.1 = n
      · simp [libInsert, hq] at hp
        rcases hp with hp | hp
        · simp [hp, hm]
        · exact h p (List.mem_cons_of_mem _ hp)
      · simp [libInsert, hq] at hp
        rcases hp with hp | hp
        · exact h p (by simp [hp])
        · exact ih (fun r hr => h r (List.mem_cons_of_mem _ hr)) p hp

theorem inv_saveCurrent (s : State) (h : Inv s) : Inv (saveCurrentToLibrary s) := by
  obtain ⟨h1, h2, h3⟩ := h
  cases ha : s.currentActivePattern with
  | none => simpa [saveCurrentToLibrary, ha] using ⟨h1, h2, h3⟩
  | some n =>
      simp only [saveCurrentToLibrary, ha]
      exact ⟨h1, h2, libOk_insert _ _ _ h3 (List.ne_nil_of_length_pos (by omega))⟩

theorem inv_tick (s s' : State) (h : Inv s) (ht : tick s = Except.ok s') : Inv s' := by
  obtain ⟨h1, h2, h3⟩ := h
  simp only [tick] at ht
  cases hscan : scanBlocks s.patternLibrary s.globalStep (sortTimeline s.songTimeline) 0 with
  | error e => simp [hscan] at ht
  | ok res =>
      simp only [hscan] at ht
      cases hf : res.foundBlock with
      | some b =>
          simp only [hf] at ht
          cases ht
          exact ⟨h1, h2, h3⟩
      | none =>
          simp only [hf] at ht
          by_cases hc : s.globalStep ≥ res.accumulatedSteps ∧ 0 < (sortTimeline s.songTimeline).length
          · simp only [if_pos hc] at ht
            cases ht
            exact ⟨h1, h2, h3⟩
          · simp only [if_neg hc] at ht
            cases ht
            exact ⟨h1, h2, h3⟩



theorem inv_initial : Inv initialState := by
  refine ⟨by decide, by decide, ?_⟩
  intro p hp
  simp [initialState] at hp

theorem inv_addPiece (s s' : State) (name : String) (h : Inv s)
    (ha : addPiece s name = Except.ok s') : Inv s' := by
  obtain ⟨h1, h2, h3⟩ := h
  simp only [addPiece] at ha
  cases hn : nextNote s with
  | none => simp [hn] at ha
  | some note =>
      simp only [hn] at ha
      cases ha
      refine ⟨by simp, by simp [h2], h3⟩

theorem inv_stepsChange (s : State) (value : String) (h : Inv s) :
    Inv (stepsChange s value) := by
  obtain ⟨h1, h2, h3⟩ := h
  simp only [stepsChange]
  cases hp : parseIntDec value with
  | none => exact ⟨h1, h2, h3⟩
  | some n =>
      by_cases hc : 0 < n ∧ n ≤ 64
      · simp only [if_pos hc]
        exact inv_saveCurrent _ ⟨h1, by simp [h2], h3⟩
      · simp only [if_neg hc]
        exact ⟨h1, h2, h3⟩

theorem inv_toggle (s : State) (row step : Nat) (h : Inv s) :
    Inv (toggleCell s row step) := by
  obtain ⟨h1, h2, h3⟩ := h
  simp only [toggleCell]
  by_cases hb : row ≥ s.drumKit.length ∨ step ≥ s.currentSteps
  · simp only [if_pos hb]
    exact ⟨h1, h2, h3⟩
  · simp only [if_neg hb]
    exact inv_saveCurrent _ ⟨h1, by simp [h2], h3⟩

theorem inv_clear (s : State) (h : Inv s) : Inv (clearClick s) := by
  obtain ⟨h1, h2, h3⟩ := h
  exact inv_saveCurrent _ ⟨h1, by simp [resetGridData], h3⟩

theorem inv_savePart (s s' : State) (input : String) (h : Inv s)
    (ha : savePart s input = Except.ok s') : Inv s' := by
  obtain ⟨h1, h2, h3⟩ := h
  simp only [savePart] at ha
  by_cases he : jsTrim input = ""
  · simp [he] at ha
  · simp only [if_neg he] at ha
    cases ha
    exact ⟨h1, h2, libOk_insert _ _ _ h3 (List.ne_nil_of_length_pos (by omega))⟩

theorem inv_loadPattern (s s' : State) (name : String) (h : Inv s)
    (ha : loadPattern s name = Except.ok s') : Inv s' := by
  obtain ⟨h1, h2, h3⟩ := h
  simp only [loadPattern] at ha
  cases hl : libLookup s.patternLibrary name with
  | none => simp [hl] at ha
  | some saved =>
      simp only [hl] at ha
      cases ha
      exact ⟨h1, by simp, h3⟩

theorem inv_placeBlock (s s' : State) (bar : Nat) (name : String) (h : Inv s)
    (ha : placeBlock s bar name = Except.ok s') : Inv s' := by
  obtain ⟨h1, h2, h3⟩ := h
  simp only [placeBlock] at ha
  cases hl : libLookup s.patternLibrary name with
  | none => simp [hl] at ha
  | some saved =>
      simp only [hl] at ha
      cases ha
      exact ⟨h1, h2, h3⟩

theorem inv_removeBlock (s : State) (bar : Nat) (h : Inv s) : Inv (removeBlock s bar) := by
  obtain ⟨h1, h2, h3⟩ := h
  exact ⟨h1, h2, h3⟩

theorem inv_playClick (s : State) (h : Inv s) : Inv (playClick s) := by
  obtain ⟨h1, h2, h3⟩ := h
  simp only [playClick]
  by_cases hb : s.transportStarted
  · simp only [if_pos hb]
    exact ⟨h1, h2, h3⟩
  · simp only [if_neg hb]
    exact ⟨h1, h2, h3⟩

theorem reachable_inv (s : State) (h : Reachable s) : Inv s := by
  induction h with
  | init => exact inv_initial
  | addPiece name hr ha ih => exact inv_addPiece _ _ name ih ha
  | stepsChange value hr ih => exact inv_stepsChange _ value ih
  | toggle row step hr ih => exact inv_toggle _ row step ih
  | clear hr ih => exact inv_clear _ ih
  | save input hr ha ih => exact inv_savePart _ _ input ih ha
  | load name hr ha ih => exact inv_loadPattern _ _ name ih ha
  | place bar name hr ha ih => exact inv_placeBlock _ _ bar name ih ha
  | remove bar hr ih => exact inv_removeBlock _ bar ih
  | play hr ih => exact inv_playClick _ ih
  | tick hr ha ih => exact inv_tick _ _ ih ha



theorem scanBlocks_ok (lib : List (String × Matrix)) (h : LibOk lib) (g : Nat) :
    ∀ (tl : List Block) (acc : Nat), ∃ r, scanBlocks lib g tl acc = Except.ok r := by
  intro tl
  induction tl with
  | nil => intro acc; exact ⟨⟨none, 0, acc⟩, rfl⟩
  | cons b bs ih =>
      intro acc
      cases hl : libLookup lib b.name with
      | none => simpa [scanBlocks, hl] using ih acc
      | some pattern =>
          have hne : pattern ≠ [] := h _ (libLookup_mem _ _ _ hl)
          cases hp : pattern with
          | nil => exact absurd hp hne
          | cons r0 rest =>
              by_cases hw : acc ≤ g ∧ g < acc + r0.length
              · exact ⟨⟨some b, g - acc, acc⟩, by simp [scanBlocks, hl, hp, hw]⟩
              · simpa [scanBlocks, hl, hp, hw] using ih (acc + r0.length)

theorem tick_ok (s : State) (h : Inv s) : ∃ s', tick s = Except.ok s' := by
  obtain ⟨r, hr⟩ :=
    scanBlocks_ok s.patternLibrary h.2.2 s.globalStep (sortTimeline s.songTimeline) 0
  simp only [tick, hr]
  exact ⟨_, rfl⟩

/-- Claim C5: in every reachable state a scheduler tick raises no error:
every reachable library matrix has at least one row (so reading the length
of a present pattern off its first row is well-defined), and an arrangement
entry whose name is absent from the library is skipped, contributing 0 to
the accumulated step offset. -/
theorem scheduler_never_errors (s : State) (h : Reachable s) :
    (∃ s', tick s = Except.ok s') ∧
    (∀ name m, libLookup s.patternLibrary name = some m → m ≠ []) ∧
    (∀ (g : Nat) (b : Block) (bs : List Block) (acc : Nat),
        libLookup s.patternLibrary b.name = none →
        scanBlocks s.patternLibrary g (b :: bs) acc
          = scanBlocks s.patternLibrary g bs acc) := by
  have hinv := reachable_inv s h
  refine ⟨tick_ok s hinv, ?_, ?_⟩
  · intro name m hm
    exact hinv.2.2 _ (libLookup_mem _ _ _ hm)
  · intro g b bs acc hnone
    simp [scanBlocks, hnone]

/-- Witness for C5 at the initial state (reachable by construction). -/
theorem scheduler_never_errors_witness :
    (∃ s', tick initialState = Except.ok s') ∧
    (∀ name m, libLookup initialState.patternLibrary name = some m → m ≠ []) ∧
    (∀ (g : Nat) (b : Block) (bs : List Block) (acc : Nat),
        libLookup initialState.patternLibrary b.name = none →
        scanBlocks initialState.patternLibrary g (b :: bs) acc
          = scanBlocks initialState.patternLibrary g bs acc) :=
  scheduler_never_errors initialState Reachable.init



theorem insertBlock_append (x : Block) (l : List Block)
    (h : ∀ y ∈ l, y.startBar ≤ x.startBar) : insertBlock x l = l ++ [x] := by
  induction l with
  | nil => rfl
  | cons y ys ih =>
      have hy : ¬ x.startBar < y.startBar := by
        have := h y (by simp)
        omega
      simp only [insertBlock, if_neg hy, List.cons_append]
      rw [ih (fun z hz => h z (by simp [hz]))]

theorem foldl_insert_sorted (tl : List Block)
    (h : tl.Pairwise (fun a b => a.startBar ≤ b.startBar)) :
    ∀ p : List Block, (∀ y ∈ p, ∀ z ∈ tl, y.startBar ≤ z.startBar) →
      tl.foldl (fun acc x => insertBlock x acc) p = p ++ tl := by
  induction tl with
  | nil => intro p _; simp
  | cons x xs ih =>
      intro p hp
      have hins : insertBlock x p = p ++ [x] :=
        insertBlock_append x p (fun y hy => hp y hy x (by simp))
      obtain ⟨hx, hxs⟩ := List.pairwise_cons.mp h
      have hnext : ∀ y ∈ p ++ [x], ∀ z ∈ xs, y.startBar ≤ z.startBar := by
        intro y hy z hz
        rcases List.mem_append.mp hy with hy | hy
        · exact hp y hy z (by simp [hz])
        · simp at hy
          subst hy
          exact hx z hz
      calc (x :: xs).foldl (fun acc x => insertBlock x acc) p
          = xs.foldl (fun acc x => insertBlock x acc) (insertBlock x p) := rfl
        _ = xs.foldl (fun acc x => insertBlock x acc) (p ++ [x]) := by rw [hins]
        _ = (p ++ [x]) ++ xs := ih hxs (p ++ [x]) hnext
        _ = p ++ x :: xs := by simp

theorem sortTimeline_sorted_id (tl : List Block)
    (h : tl.Pairwise (fun a b => a.startBar ≤ b.startBar)) : sortTimeline tl = tl := by
  have := foldl_insert_sorted tl h [] (by simp)
  simpa [sortTimeline] using this

theorem scanBlocks_window (lib : List (String × Matrix)) (t : Nat) :
    ∀ (pre : List Block) (b : Block) (post : List Block) (acc : Nat),
      (∀ x ∈ pre, ∃ m, libLookup lib x.name = some m ∧ m ≠ []) →
      acc + accSteps lib pre ≤ t →
      t < acc + accSteps lib pre + blockLen lib b →
      scanBlocks lib t (pre ++ b :: post) acc
        = Except.ok ⟨some b, t - (acc + accSteps lib pre), acc + accSteps lib pre⟩ := by
  intro pre
  induction pre with
  | nil =>
      intro b post acc hall hlo hhi
      simp only [accSteps, List.map_nil, List.sum_nil, Nat.add_zero] at hlo hhi ⊢
      have hpos : 0 < blockLen lib b := by omega
      cases hl : libLookup lib b.name with
      | none => simp [blockLen, hl] at hpos
      | some m =>
          cases hm : m.head? with
          | none => simp [blockLen, hl, hm] at hpos
          | some r0 =>
              have hL : blockLen lib b = r0.length := by simp [blockLen, hl, hm]
              rw [hL] at hhi
              simp only [List.nil_append, scanBlocks, hl, hm]
              rw [if_pos (⟨hlo, hhi⟩ : acc ≤ t ∧ t < acc + List.length r0)]
  | cons x pre' ih =>
      intro b post acc hall hlo hhi
      obtain ⟨m, hl, hne⟩ := hall x (by simp)
      cases m with
      | nil => exact absurd rfl hne
      | cons r0 rest =>
          have hacc : accSteps lib (x :: pre') = r0.length + accSteps lib pre' := by
            simp [accSteps, blockLen, hl]
          rw [hacc] at hlo hhi
          have hnw : ¬ (acc ≤ t ∧ t < acc + r0.length) := by omega
          simp only [List.cons_append, scanBlocks, hl, List.head?_cons]
          rw [if_neg hnw]
          simp only [List.append_eq]
          rw [ih b post (acc + r0.length) (fun z hz => hall z (by simp [hz]))
            (by omega) (by omega)]
          rw [hacc, ← Nat.add_assoc]



/-- Claim C1: with pattern A (length 4) at bar 0 and B (length 8) at bar
10, ticks 0-3 resolve to (A, 0..3), ticks 4-11 to (B, 0..7) - the 10-bar
visual gap contributing no time - and tick 12 transitions to Stopped; and
in general, on a sorted arrangement whose patterns all resolve in the
library, tick t resolves to the entry whose window
[accumulated, accumulated + L) contains t, with localStep = t -
accumulated. -/
theorem scheduler_concatenation :
    (∀ t, t < 4 → resolved sAB t = some ("A", t)) ∧
    (∀ t, t < 8 → resolved sAB (4 + t) = some ("B", t)) ∧
    resolved sAB 12 = none ∧
    (∃ s', tick { sAB with globalStep := 12 } = Except.ok s' ∧
        s'.transportStarted = false) ∧
    (∀ (s : State) (pre : List Block) (b : Block) (post : List Block) (t : Nat),
        s.songTimeline = pre ++ b :: post →
        s.songTimeline.Pairwise (fun a b => a.startBar ≤ b.startBar) →
        (∀ x ∈ s.songTimeline, ∃ m, libLookup s.patternLibrary x.name = some m ∧ m ≠ []) →
        accSteps s.patternLibrary pre ≤ t →
        t < accSteps s.patternLibrary pre + blockLen s.patternLibrary b →
        resolved s t = some (b.name, t - accSteps s.patternLibrary pre)) := by
  refine ⟨by decide, by decide, by decide,
    ⟨{ sAB with globalStep := 1, transportStarted := false }, by decide, by decide⟩, ?_⟩
  intro s pre b post t htl hsort hall hlo hhi
  have hsorted : sortTimeline s.songTimeline = s.songTimeline :=
    sortTimeline_sorted_id _ hsort
  have hpre : ∀ x ∈ pre, ∃ m, libLookup s.patternLibrary x.name = some m ∧ m ≠ [] := by
    intro x hx
    exact hall x (by rw [htl]; exact List.mem_append_left _ hx)
  have hs2 : sortTimeline s.songTimeline = pre ++ b :: post := by rw [hsorted, htl]
  simp only [resolved, hs2]
  rw [scanBlocks_window s.patternLibrary t pre b post 0 hpre
    (by simpa using hlo) (by simpa using hhi)]
  simp

end IziDrummer
